import Mathlib

/-!
# Verification of the pbench request-schema validation and query-assembly core

Shallow embedding of the typed-parameter request validation framework
(`ParamType`, `Parameter`, `Schema`) and of the two concrete query resources
(`DatasetsList`, `Elasticsearch`) of the pbench server.

The two resource classes are embedded from
`src/lib/pbench/server/api/resources/query_apis/datasets_list.py` and
`src/lib/pbench/server/api/resources/query_apis/elasticsearch_api.py`.
The `ParamType`/`Parameter`/`Schema` implementation itself is not in the
source tree (only its unit tests, `test_schema.py`, and its callers are),
so those definitions are modelled from the specification, with the unit
tests used to pin behaviour where they are more precise than the spec.

JSON values are modelled by the inductive type `Value`; Python `dict`s are
association lists (Python dicts preserve insertion order and the payloads
here have unique keys).  Python exceptions are modelled with
`Except`/`Option`: a raised exception is an `Except.error`/`none` result.
-/
/-- A JSON-like value as passed through the request pipeline.  `date` is the
canonical in-memory form produced by DATE conversion (a parsed date/time
value, distinct from the string it came from); `null` models Python
`None`/JSON `null`. -/
inductive Value where
  | null : Value
  | bool (b : Bool) : Value
  | num (n : Int) : Value
  | str (s : String) : Value
  | arr (elems : List Value) : Value
  | obj (fields : List (String × Value)) : Value
  | date (year month day hour minute second : Nat) : Value

/-- Python `d[k]` / `k in d` on an ordered dict modelled as an association
list: the value at the first matching key, if any. -/
def lookupVal (fields : List (String × Value)) (k : String) : Option Value :=
  (fields.find? (fun e => e.1 == k)).map (fun e => e.2)

/-- Python `is None` test on an embedded value. -/
def Value.isNull : Value → Bool
  | .null => true
  | _ => false

/-! ## Date parsing

The DATE conversion delegates to the third-party `dateutil` parser, which is
outside the repository; the spec pins only its ISO-8601 behaviour. -/
/-- Number of days in a calendar month (Gregorian, with leap years). -/
def daysInMonth (y m : Nat) : Nat :=
  if m = 2 then (if y % 4 = 0 ∧ (y % 100 ≠ 0 ∨ y % 400 = 0) then 29 else 28)
  else if m = 4 ∨ m = 6 ∨ m = 9 ∨ m = 11 then 30 else 31

/-- Split a character list on a separator character (like Python's
`str.split(sep)`). -/
def splitOnChar (c : Char) : List Char → List (List Char)
  | [] => [[]]
  | x :: xs =>
    let r := splitOnChar c xs
    if x = c then [] :: r
    else match r with
      | [] => [[x]]
      | y :: ys => (x :: y) :: ys

/-- Read a non-empty run of decimal digits as a `Nat`. -/
def digitsToNatAux : List Char → Nat → Option Nat
  | [], acc => some acc
  | c :: cs, acc =>
    if c.isDigit then digitsToNatAux cs (acc * 10 + (c.toNat - 48)) else none

/-- Read a non-empty all-digit character list as a `Nat`; `none` on an empty
list or any non-digit character. -/
def digitsToNat? : List Char → Option Nat
  | [] => none
  | l => digitsToNatAux l 0

/-- Parse an `HH:MM:SS[.ffffff]` time-of-day component (fractional seconds
are truncated). -/
def parseTimePart (t : List Char) : Option (Nat × Nat × Nat) :=
  match splitOnChar ':' t with
  | [hs, ms, ss] => do
    let h ← digitsToNat? hs
    let mi ← digitsToNat? ms
    let se ← digitsToNat? ((splitOnChar '.' ss).headD ss)
    if h < 24 ∧ mi < 60 ∧ se < 60 then some (h, mi, se) else none
  | _ => none

/-- Parse a `YYYY-MM-DD` calendar date, rejecting out-of-range months and
days, and attach a time of day. -/
def parseDateParts (d : List Char) (h mi se : Nat) : Option Value :=
  match splitOnChar '-' d with
  | [ys, mos, ds] => do
    let y ← digitsToNat? ys
    let mo ← digitsToNat? mos
    let da ← digitsToNat? ds
    if 1 ≤ mo ∧ mo ≤ 12 ∧ 1 ≤ da ∧ da ≤ daysInMonth y mo then
      some (Value.date y mo da h mi se)
    else none
  | _ => none

/-- Modelled from the spec: DATE values must "accept ISO-8601-like date and
date-time strings and reject syntactically invalid calendar dates (e.g.,
day 45)".  Parses `YYYY-MM-DD` optionally followed by `THH:MM:SS[.ffffff]`
into the canonical `Value.date` form, validating the calendar fields. -/
def parseDate (s : String) : Option Value :=
  match splitOnChar 'T' s.data with
  | [d] => parseDateParts d 0 0 0
  | [d, t] => do
    let (h, mi, se) ← parseTimePart t
    parseDateParts d h mi se
  | _ => none

/-! ## ParamType, Parameter, Schema

The implementation of these three classes lives in
`pbench/server/api/resources/query_apis/__init__.py`, which is not under
`src/`; only its unit tests (`src/lib/pbench/test/unit/server/test_schema.py`)
and its callers are.  They are therefore modelled from the spec, with the
unit tests pinning behaviour where they are more precise. -/
/-- Modelled from the spec: the closed set of parameter type variants
{STRING, JSON, DATE, USER}. -/
inductive ParamType where
  | STRING : ParamType
  | JSON : ParamType
  | DATE : ParamType
  | USER : ParamType

/-- Modelled from the spec: each variant's "canonical display name"
used verbatim in user-facing error text. -/
def ParamType.friendly : ParamType → String
  | .STRING => "string"
  | .JSON => "json"
  | .DATE => "date"
  | .USER => "username"

/-- Modelled from the spec: the client-input error taxonomy of the
validation layer — payload-shape failure, batched missing-required failure,
and fail-fast per-field conversion failure (carrying the offending value
and the expected type's display name). -/
inductive SchemaError where
  | invalidRequestPayload : SchemaError
  | missingParameters (keys : List String) : SchemaError
  | conversionError (value : Value) (expectedType : String) : SchemaError

/-- Modelled from the spec: per-variant conversion to canonical form.
STRING and JSON are structural checks with identity conversion (JSON
requires an already-structured mapping/sequence, not an encoded string);
DATE parses the string into a canonical date/time value; USER delegates to
the injectable identity collaborator `auth` (`validate_user(name) ->
canonical name`, failing when the user is unknown/unauthorized, the
rejection re-raised as a conversion error carrying the username). -/
def ParamType.convert (auth : String → Option String) :
    ParamType → Value → Except SchemaError Value
  | .STRING, .str s => .ok (.str s)
  | .JSON, .obj fs => .ok (.obj fs)
  | .JSON, .arr xs => .ok (.arr xs)
  | .DATE, .str s =>
    match parseDate s with
    | some d => .ok d
    | none => .error (.conversionError (.str s) ParamType.DATE.friendly)
  | .USER, .str u =>
    match auth u with
    | some canonical => .ok (.str canonical)
    | none => .error (.conversionError (.str u) ParamType.USER.friendly)
  | t, v => .error (.conversionError v t.friendly)

/-- Modelled from the spec: the immutable `(name, type, required)` triple,
`required` defaulting to false. -/
structure Parameter where
  name : String
  type : ParamType
  required : Bool := false

/-- Modelled from the spec: `invalid(payload)` decides whether the payload
violates this parameter's requirement.  The spec's §3 wording ("required
AND (absent OR null)") disagrees with the repository's own unit tests on
one point: `TestParameter.test_invalid_optional` requires a present `null`
value to count as invalid even for an optional parameter.  The tests are
code of the repository, so the embedding follows them: a present value is
invalid iff it is null, an absent one is invalid iff the parameter is
required. -/
def Parameter.invalid (p : Parameter) (fields : List (String × Value)) : Bool :=
  match lookupVal fields p.name with
  | some v => v.isNull
  | none => p.required

/-- Modelled from the spec: an ordered collection of Parameters (names
assumed unique within one schema). -/
structure Schema where
  params : List Parameter

/-- Parameter lookup by field name (the source keeps a name-keyed dict). -/
def Schema.find (s : Schema) (k : String) : Option Parameter :=
  s.params.find? (fun p => p.name == k)

/-- Modelled from the spec: the conversion sweep of `Schema.validate`
(step 3) — walk the payload in order and, for every field that is a
declared parameter with a non-null value, replace the value with its
type's conversion; the first conversion failure aborts the whole walk
(fail-fast).  Undeclared fields and null values are left untouched. -/
def Schema.convertFields (auth : String → Option String) (s : Schema) :
    List (String × Value) → Except SchemaError (List (String × Value))
  | [] => .ok []
  | (k, v) :: rest =>
    match s.find k with
    | some p =>
      if v.isNull then
        match s.convertFields auth rest with
        | .ok rest' => .ok ((k, v) :: rest')
        | .error e => .error e
      else
        match p.type.convert auth v with
        | .ok cv =>
          match s.convertFields auth rest with
          | .ok rest' => .ok ((k, cv) :: rest')
          | .error e => .error e
        | .error e => .error e
    | none =>
      match s.convertFields auth rest with
      | .ok rest' => .ok ((k, v) :: rest')
      | .error e => .error e

/-- Modelled from the spec: `Schema.validate(payload)`.  Step 1: the
payload must be a structured mapping, else `InvalidRequestPayload`.
Step 2: gather every required parameter whose `invalid(payload)` holds and,
if any, fail with `MissingParameters` naming all of them (batched, not
first-only).  Step 3: convert every present non-null declared field
fail-fast.  Step 4: return the payload with convertible fields replaced by
their canonical values (absent parameters untouched, no default
injection). -/
def Schema.validate (auth : String → Option String) (s : Schema)
    (payload : Value) : Except SchemaError (List (String × Value)) :=
  match payload with
  | .obj fields =>
    let badParams := s.params.filter (fun p => p.required && p.invalid fields)
    if badParams.isEmpty then s.convertFields auth fields
    else .error (.missingParameters (badParams.map Parameter.name))
  | _ => .error .invalidRequestPayload

/-! ## Generic JSON access helpers used by the resource embeddings -/
/-- Python `d[k]` / `k in d` on a JSON value: a key lookup that fails on a
non-object. -/
def objGet (v : Value) (k : String) : Option Value :=
  match v with
  | .obj fields => lookupVal fields k
  | _ => none

/-- Python `xs[0]` on a JSON list: the first element, failing (IndexError)
on an empty or non-list value. -/
def arrGet0 : Value → Option Value
  | .arr (x :: _) => some x
  | _ => none

/-! ## The "list datasets" resource
(`src/lib/pbench/server/api/resources/query_apis/datasets_list.py`) -/
/-- The schema bound by `DatasetsList.__init__`: required USER `user`,
required STRING `controller`, required DATE `start`, required DATE `end`,
in that order. -/
def DatasetsList.schema : Schema :=
  ⟨[⟨"user", .USER, true⟩, ⟨"controller", .STRING, true⟩,
    ⟨"start", .DATE, true⟩, ⟨"end", .DATE, true⟩]⟩

/-- `DatasetsList.assemble`.  The inherited `ElasticBase` helpers
`_gen_month_range` (the index-naming-by-date-range collaborator, applied to
the hard-coded index root `".v6.run-data."`) and `_get_user_term` (the
resolved user-ownership term) are not under `src/`; modelled from the spec
as injected collaborator functions `genMonthRange` and `getUserTerm`.  A
`none` result models a KeyError on a payload missing one of the four
fields (impossible for a schema-validated payload). -/
def DatasetsList.assemble
    (genMonthRange : String → Value → Value → String)
    (getUserTerm : Value → Value)
    (json_data : List (String × Value)) : Option Value := do
  let user ← lookupVal json_data "user"
  let controller ← lookupVal json_data "controller"
  let start ← lookupVal json_data "start"
  let endv ← lookupVal json_data "end"
  let uriFragment := genMonthRange ".v6.run-data." start endv
  some (.obj [
    ("path", .str ("/" ++ uriFragment ++ "/_search")),
    ("kwargs", .obj [
      ("json", .obj [
        ("_source", .obj [("includes", .arr [
          .str "@metadata.controller_dir",
          .str "@metadata.satellite",
          .str "run.controller",
          .str "run.start",
          .str "run.end",
          .str "run.name",
          .str "run.config",
          .str "run.prefix",
          .str "run.id"])]),
        ("sort", .obj [("run.end", .obj [("order", .str "desc")])]),
        ("query", .obj [("bool", .obj [("filter", .arr [
          .obj [("term", getUserTerm user)],
          .obj [("term", .obj [("run.controller", controller)])]])])]),
        ("size", .num 5000)])])])

/-- The `try` block of `DatasetsList.postprocess`:
`parser.parse(run["start"]).utcfromtimestamp()`.
`datetime.utcfromtimestamp` is a classmethod that requires a
POSIX-timestamp argument; invoked on the parsed datetime object with no
argument it raises `TypeError` for every input (and `parser.parse` itself
raises on an unparseable or non-string value), so the whole expression
raises — and the `except` fallback to `dataset["sort"][0]` runs — for every
input. -/
def startTimestampAttempt (v : Value) : Option Value :=
  match v with
  | .str s => (parseDate s).bind (fun _ => none)
  | _ => none

/-- Python `if k in d: out[k2] = d[k]`: the singleton or empty field list
appended for an optional source field. -/
def optField (k : String) (o : Option Value) : List (String × Value) :=
  match o with
  | some v => [(k, v)]
  | none => []

/-- The optional `@metadata` block of a hit: `controller_dir` and
`satellite` are copied out only when `@metadata` itself is present and
carries them. -/
def metaFields (src : Value) : List (String × Value) :=
  match objGet src "@metadata" with
  | some meta =>
    optField "@metadata.controller_dir" (objGet meta "controller_dir") ++
    optField "@metadata.satellite" (objGet meta "satellite")
  | none => []

/-- One iteration of the `for dataset in hits` loop of
`DatasetsList.postprocess`: build the flattened record `d` from the hit's
`_source.run` fields, then the `startUnixTimestamp` (the parse attempt
falling back to the backend sort key), then the optional fields in source
order.  `none` models an uncaught exception: a KeyError on a missing
mandatory sub-field, or on a missing `sort` key when the fallback is
needed. -/
def postprocessHit (hit : Value) : Option Value := do
  let src ← objGet hit "_source"
  let run ← objGet src "run"
  let name ← objGet run "name"
  let controller ← objGet run "controller"
  let start ← objGet run "start"
  let endv ← objGet run "end"
  let idv ← objGet run "id"
  let timestamp ← match startTimestampAttempt start with
    | some t => some t
    | none => (objGet hit "sort").bind arrGet0
  some (.obj (
    [("key", name), ("run.name", name), ("run.controller", controller),
     ("run.start", start), ("run.end", endv), ("id", idv),
     ("startUnixTimestamp", timestamp)] ++
    optField "run.config" (objGet run "config") ++
    optField "run.prefix" (objGet run "prefix") ++
    metaFields src))

/-- `DatasetsList.postprocess`: flatten `es_json["hits"]["hits"]` into the
list of dataset-summary records (`jsonify` of the Python list is modelled
as `Value.arr`); `none` models an uncaught exception escaping to the
caller. -/
def DatasetsList.postprocess (es_json : Value) : Option Value := do
  let hits1 ← objGet es_json "hits"
  let hits2 ← objGet hits1 "hits"
  match hits2 with
  | .arr hits => do
    let ds ← hits.mapM postprocessHit
    some (.arr ds)
  | _ => none

/-! ## The Elasticsearch passthrough resource
(`src/lib/pbench/server/api/resources/query_apis/elasticsearch_api.py`) -/
/-- The schema bound by `Elasticsearch.__init__`: required STRING
`indices`, optional JSON `payload` and `params`. -/
def Elasticsearch.schema : Schema :=
  ⟨[⟨"indices", .STRING, true⟩, ⟨"payload", .JSON, false⟩,
    ⟨"params", .JSON, false⟩]⟩

/-- `Elasticsearch.assemble`: the path is the validated `indices` value
(`json_data["indices"]`, a KeyError — `none` — if absent); the two kwargs
entries use `dict.get`, i.e. they are present with value `null` when the
optional key is absent. -/
def Elasticsearch.assemble (json_data : List (String × Value)) :
    Option Value := do
  let indices ← lookupVal json_data "indices"
  some (.obj [
    ("path", indices),
    ("kwargs", .obj [
      ("json", (lookupVal json_data "payload").getD .null),
      ("params", (lookupVal json_data "params").getD .null)])])

/-- `Elasticsearch.postprocess`: returns the Elasticsearch response
unchanged. -/
def Elasticsearch.postprocess (es_json : Value) : Value := es_json

/-- The identity stub for the identity-validation collaborator (accepts
every username as its own canonical form), as the unit tests monkeypatch
`Auth.validate_user`. -/
def authStub : String → Option String := fun u => some u

/-- The three-parameter schema of `TestSchema` in the unit tests: required
STRING key1, optional JSON key2, optional DATE key3. -/
def testSchema : Schema :=
  ⟨[⟨"key1", .STRING, true⟩, ⟨"key2", .JSON, false⟩, ⟨"key3", .DATE, false⟩]⟩

/-- The `test_all_clear` payload of the unit tests. -/
def allClearPayload : Value :=
  .obj [("key1", .str "name"), ("key3", .str "2021-06-29"),
        ("key2", .obj [("json", .bool true), ("key", .str "abc")])]

/-- The expected validation result for `allClearPayload`: key3 replaced by
its parsed date, everything else unchanged. -/
def allClearResult : List (String × Value) :=
  [("key1", .str "name"), ("key3", .date 2021 6 29 0 0 0),
   ("key2", .obj [("json", .bool true), ("key", .str "abc")])]

/-- The two-required/one-optional schema of the spec's §8 example:
required A and B, optional C. -/
def abSchema : Schema :=
  ⟨[⟨"A", .STRING, true⟩, ⟨"B", .STRING, true⟩, ⟨"C", .STRING, false⟩]⟩

/-- A "list datasets" payload as in the spec's end-to-end scenario, with a
concrete owner instead of the (rejected) null sentinel. -/
def dlPayload : Value :=
  .obj [("user", .str "drb"), ("controller", .str "host1"),
        ("start", .str "2020-01-01"), ("end", .str "2020-01-31")]

/-- The validated form of `dlPayload`: the two DATE fields replaced by
their canonical parsed values. -/
def dlValidated : List (String × Value) :=
  [("user", .str "drb"), ("controller", .str "host1"),
   ("start", .date 2020 1 1 0 0 0), ("end", .date 2020 1 31 0 0 0)]

/-- A concrete stand-in for the month-range index-naming collaborator. -/
def demoMonthRange : String → Value → Value → String :=
  fun root _ _ => root ++ "2020-01"

/-- A concrete stand-in for the user-ownership term collaborator. -/
def demoUserTerm : Value → Value :=
  fun u => .obj [("authorization.owner", u)]

/-- A backend hit carrying all the mandatory fields `postprocess` indexes
(`_source.run.{name,controller,start,end,id}`) plus a backend-assigned
sort key — which every hit of a sorted search response carries. -/
def WellFormedHit (hit : Value) : Prop :=
  ∃ src run name controller start endv idv sk,
    objGet hit "_source" = some src ∧
    objGet src "run" = some run ∧
    objGet run "name" = some name ∧
    objGet run "controller" = some controller ∧
    objGet run "start" = some start ∧
    objGet run "end" = some endv ∧
    objGet run "id" = some idv ∧
    (objGet hit "sort").bind arrGet0 = some sk

/-- A one-hit backend response whose `run.start` is a perfectly parseable
date-time string and whose backend-assigned sort key is 42. -/
def parseableHit : Value := .obj [
  ("_source", .obj [("run", .obj [
    ("name", .str "runA"), ("controller", .str "ctl"),
    ("start", .str "2020-04-29T12:49:13.560620"),
    ("end", .str "2020-04-29T13:30:04.918704"),
    ("id", .str "id1")])]),
  ("sort", .arr [.num 42])]

/-- The run block of the spec's §8 scenario hit: no "config" field (but a
"prefix", to exercise both directions). -/
def runC : Value := .obj [
  ("name", .str "runC"), ("controller", .str "ctl"),
  ("start", .str "2020-04-29T12:49:13"),
  ("end", .str "2020-04-30T12:49:13"),
  ("id", .str "id3"),
  ("prefix", .str "pfx")]

/-- The `_source` of the scenario hit: a run without "config" and a
metadata block carrying only "satellite". -/
def srcC : Value := .obj [
  ("run", runC),
  ("@metadata", .obj [("satellite", .str "sat1")])]

/-- A backend hit lacking the optional "config" field. -/
def noConfigHit : Value := .obj [
  ("_source", srcC), ("sort", .arr [.num 99])]

/-- A backend hit whose `run.start` does not parse as a date/time, with
backend sort key 7. -/
def unparseableHit : Value := .obj [
  ("_source", .obj [("run", .obj [
    ("name", .str "runB"), ("controller", .str "ctl"),
    ("start", .str "not-a-date"),
    ("end", .str "2020-04-30"),
    ("id", .str "id2")])]),
  ("sort", .arr [.num 7])]

theorem lookupVal_nil (k : String) : lookupVal [] k = none := rfl

theorem lookupVal_cons (k₀ : String) (v₀ : Value) (rest : List (String × Value))
    (k : String) :
    lookupVal ((k₀, v₀) :: rest) k =
      if k₀ == k then some v₀ else lookupVal rest k := by
  simp only [lookupVal, List.find?]
  cases h : (k₀ == k) <;> simp [h]

/-! ## Basic lemmas about the embedded model -/
theorem Value.isNull_eq_false_iff (v : Value) :
    v.isNull = false ↔ v ≠ Value.null := by
  cases v <;> simp [Value.isNull]

theorem Value.isNull_eq_true_iff (v : Value) :
    v.isNull = true ↔ v = Value.null := by
  cases v <;> simp [Value.isNull]

/-- A successfully parsed date is always a canonical `Value.date`. -/
theorem parseDateParts_shape (d : List Char) (h mi se : Nat) (v : Value)
    (hp : parseDateParts d h mi se = some v) :
    ∃ y mo da, v = Value.date y mo da h mi se := by
  unfold parseDateParts at hp
  split at hp
  case _ ys mos ds _ =>
    simp only [Option.bind_eq_bind, Option.bind_eq_some] at hp
    obtain ⟨y, _, mo, _, da, _, hp⟩ := hp
    split at hp
    · exact ⟨y, mo, da, (Option.some_inj.mp hp).symm⟩
    · exact absurd hp (by simp)
  case _ => exact absurd hp (by simp)

/-- A successfully parsed date string is always a canonical `Value.date`. -/
theorem parseDate_shape (s : String) (v : Value) (hp : parseDate s = some v) :
    ∃ y mo da h mi se, v = Value.date y mo da h mi se := by
  unfold parseDate at hp
  split at hp
  case _ d _ =>
    obtain ⟨y, mo, da, hv⟩ := parseDateParts_shape d 0 0 0 v hp
    exact ⟨y, mo, da, 0, 0, 0, hv⟩
  case _ d t _ =>
    simp only [Option.bind_eq_bind, Option.bind_eq_some] at hp
    obtain ⟨⟨h, mi, se⟩, _, hp⟩ := hp
    obtain ⟨y, mo, da, hv⟩ := parseDateParts_shape d h mi se v hp
    exact ⟨y, mo, da, h, mi, se, hv⟩
  case _ => exact absurd hp (by simp)

/-- Canonical conversion never produces a null value: every variant's
success constructor wraps a non-null `Value`. -/
theorem ParamType.convert_ok_ne_null (auth : String → Option String)
    (t : ParamType) (v cv : Value) (h : t.convert auth v = .ok cv) :
    cv ≠ Value.null := by
  cases t <;> cases v <;>
    simp only [ParamType.convert] at h <;>
    first
    | (injection h with h2; subst h2; simp)
    | exact Except.noConfusion h
    | skip
  case DATE.str s =>
    rcases hp : parseDate s with _ | d
    · simp [hp] at h
    · simp only [hp] at h
      injection h with h2
      subst h2
      obtain ⟨y, mo, da, h1, h2, h3, rfl⟩ := parseDate_shape s d hp
      simp
  case USER.str u =>
    rcases ha : auth u with _ | c
    · simp [ha] at h
    · simp only [ha] at h
      injection h with h2
      subst h2
      simp

/-- The conversion sweep leaves absent keys absent (no default
injection). -/
theorem Schema.convertFields_absent (auth : String → Option String)
    (s : Schema) (fields : List (String × Value)) :
    ∀ fields', s.convertFields auth fields = .ok fields' →
      ∀ k, lookupVal fields k = none → lookupVal fields' k = none := by
  induction fields with
  | nil =>
    intro fields' h k hk
    simp only [Schema.convertFields] at h
    injection h with h2
    subst h2
    exact hk
  | cons e rest ih =>
    obtain ⟨k₀, v₀⟩ := e
    intro fields' h k hk
    rw [lookupVal_cons] at hk
    cases hkk : (k₀ == k) with
    | true => rw [if_pos hkk] at hk; exact absurd hk (by simp)
    | false =>
      rw [if_neg (by simp [hkk])] at hk
      simp only [Schema.convertFields] at h
      rcases hf : s.find k₀ with _ | p <;> simp only [hf] at h
      · rcases hc : s.convertFields auth rest with e | rest' <;>
          simp only [hc] at h
        · exact absurd h (Except.noConfusion h)
        · injection h with h2
          subst h2
          rw [lookupVal_cons, if_neg (by simp [hkk])]
          exact ih rest' hc k hk
      · cases hn : v₀.isNull <;> simp only [hn, Bool.false_eq_true,
          if_false, if_true] at h
        · rcases hcv : p.type.convert auth v₀ with e | cv <;>
            simp only [hcv] at h
          · exact absurd h (Except.noConfusion h)
          · rcases hc : s.convertFields auth rest with e | rest' <;>
              simp only [hc] at h
            · exact absurd h (Except.noConfusion h)
            · injection h with h2
              subst h2
              rw [lookupVal_cons, if_neg (by simp [hkk])]
              exact ih rest' hc k hk
        · rcases hc : s.convertFields auth rest with e | rest' <;>
            simp only [hc] at h
          · exact absurd h (Except.noConfusion h)
          · injection h with h2
            subst h2
            rw [lookupVal_cons, if_neg (by simp [hkk])]
            exact ih rest' hc k hk

/-- The conversion sweep replaces every present non-null declared field with
its type's successful conversion, and a success of the whole sweep means
every such conversion succeeded. -/
theorem Schema.convertFields_present (auth : String → Option String)
    (s : Schema) (fields : List (String × Value)) :
    ∀ fields', s.convertFields auth fields = .ok fields' →
      ∀ k v p, lookupVal fields k = some v → v.isNull = false →
        s.find k = some p →
        ∃ cv, p.type.convert auth v = .ok cv ∧ lookupVal fields' k = some cv := by
  induction fields with
  | nil =>
    intro fields' h k v p hk
    simp [lookupVal] at hk
  | cons e rest ih =>
    obtain ⟨k₀, v₀⟩ := e
    intro fields' h k v p hk hv hp
    rw [lookupVal_cons] at hk
    simp only [Schema.convertFields] at h
    cases hkk : (k₀ == k) with
    | true =>
      rw [if_pos hkk] at hk
      injection hk with hk2
      subst hk2
      obtain rfl : k₀ = k := by simpa using hkk
      rw [hp] at h
      simp only [hv, Bool.false_eq_true, if_false] at h
      rcases hcv : p.type.convert auth v₀ with e | cv <;> simp only [hcv] at h
      · exact absurd h (Except.noConfusion h)
      · rcases hc : s.convertFields auth rest with e | rest' <;>
          simp only [hc] at h
        · exact absurd h (Except.noConfusion h)
        · injection h with h2
          subst h2
          exact ⟨cv, rfl, by rw [lookupVal_cons, if_pos (by simp)]⟩
    | false =>
      rw [if_neg (by simp [hkk])] at hk
      rcases hf : s.find k₀ with _ | p₀ <;> simp only [hf] at h
      · rcases hc : s.convertFields auth rest with e | rest' <;>
          simp only [hc] at h
        · exact absurd h (Except.noConfusion h)
        · injection h with h2
          subst h2
          obtain ⟨cv, hcv, hl⟩ := ih rest' hc k v p hk hv hp
          exact ⟨cv, hcv, by rw [lookupVal_cons, if_neg (by simp [hkk])]; exact hl⟩
      · cases hn : v₀.isNull <;> simp only [hn, Bool.false_eq_true,
          if_false, if_true] at h
        · rcases hcv₀ : p₀.type.convert auth v₀ with e | cv₀ <;>
            simp only [hcv₀] at h
          · exact absurd h (Except.noConfusion h)
          · rcases hc : s.convertFields auth rest with e | rest' <;>
              simp only [hc] at h
            · exact absurd h (Except.noConfusion h)
            · injection h with h2
              subst h2
              obtain ⟨cv, hcv, hl⟩ := ih rest' hc k v p hk hv hp
              exact ⟨cv, hcv, by rw [lookupVal_cons, if_neg (by simp [hkk])]; exact hl⟩
        · rcases hc : s.convertFields auth rest with e | rest' <;>
            simp only [hc] at h
          · exact absurd h (Except.noConfusion h)
          · injection h with h2
            subst h2
            obtain ⟨cv, hcv, hl⟩ := ih rest' hc k v p hk hv hp
            exact ⟨cv, hcv, by rw [lookupVal_cons, if_neg (by simp [hkk])]; exact hl⟩

/-- A required parameter that is not `invalid` is present with a non-null
value. -/
theorem Parameter.required_present (p : Parameter)
    (fields : List (String × Value)) (hreq : p.required = true)
    (hinv : p.invalid fields = false) :
    ∃ v, lookupVal fields p.name = some v ∧ v ≠ Value.null := by
  rcases h : lookupVal fields p.name with _ | v
  · simp only [Parameter.invalid, h] at hinv
    rw [hreq] at hinv
    exact absurd hinv (by simp)
  · simp only [Parameter.invalid, h] at hinv
    exact ⟨v, rfl, (Value.isNull_eq_false_iff v).mp hinv⟩

/-- Every schema member can be found by its own name. -/
theorem Schema.find_of_mem (s : Schema) (p : Parameter) (hp : p ∈ s.params) :
    ∃ p', s.find p.name = some p' := by
  have hs : (s.params.find? (fun q => q.name == p.name)).isSome :=
    List.find?_isSome.mpr ⟨p, hp, by simp⟩
  exact Option.isSome_iff_exists.mp hs

/-- Unfolding a successful `validate`: the payload was a mapping, no
required parameter was invalid, and the conversion sweep succeeded. -/
theorem Schema.validate_ok_elim (auth : String → Option String) (s : Schema)
    (payload : Value) (result : List (String × Value))
    (h : s.validate auth payload = .ok result) :
    ∃ fields, payload = .obj fields ∧
      (∀ p ∈ s.params, p.required = true → p.invalid fields = false) ∧
      s.convertFields auth fields = .ok result := by
  cases payload <;> simp only [Schema.validate] at h <;>
    first
    | exact Except.noConfusion h
    | skip
  case obj fields =>
    refine ⟨fields, rfl, ?_, ?_⟩
    all_goals
      cases hb : (s.params.filter (fun p => p.required && p.invalid fields)).isEmpty <;>
        rw [hb] at h <;>
        simp only [Bool.false_eq_true, if_false, if_true] at h
    · exact absurd h (Except.noConfusion h)
    · intro p hp hreq
      have hnil : s.params.filter (fun p => p.required && p.invalid fields) = [] :=
        List.isEmpty_iff.mp hb
      have := (List.filter_eq_nil_iff.mp hnil) p hp
      simp only [hreq, Bool.true_and] at this
      exact Bool.not_eq_true _ ▸ (by simpa using this)
    · exact absurd h (Except.noConfusion h)
    · exact h

/-- Unfolding a `validate` on a mapping payload with at least one invalid
required parameter: the result is a `MissingParameters` error naming the
gathered fields. -/
theorem Schema.validate_missing (auth : String → Option String) (s : Schema)
    (fields : List (String × Value))
    (hbad : s.params.filter (fun p => p.required && p.invalid fields) ≠ []) :
    s.validate auth (.obj fields) = .error (.missingParameters
      ((s.params.filter (fun p => p.required && p.invalid fields)).map
        Parameter.name)) := by
  simp only [Schema.validate]
  rw [if_neg (by simpa [List.isEmpty_iff] using hbad)]

/-- Successful validation forces every required parameter to be present in
the returned payload with a non-null value (shared workhorse corollary). -/
theorem Schema.validate_ok_required_present (auth : String → Option String)
    (s : Schema) (payload : Value) (result : List (String × Value))
    (h : s.validate auth payload = .ok result) (p : Parameter)
    (hp : p ∈ s.params) (hreq : p.required = true) :
    ∃ v, lookupVal result p.name = some v ∧ v ≠ Value.null := by
  obtain ⟨fields, rfl, hok, hconv⟩ :=
    Schema.validate_ok_elim auth s payload result h
  obtain ⟨v, hv, hvn⟩ :=
    Parameter.required_present p fields hreq (hok p hp hreq)
  obtain ⟨p', hp'⟩ := Schema.find_of_mem s p hp
  obtain ⟨cv, hcv, hlook⟩ :=
    Schema.convertFields_present auth s fields result hconv p.name v p' hv
      ((Value.isNull_eq_false_iff v).mpr hvn) hp'
  exact ⟨cv, hlook, ParamType.convert_ok_ne_null auth p'.type v cv hcv⟩

/-- **C1.** For every Schema S and payload P, if `S.validate(P)` succeeds,
then (a) every required parameter's name is a key of the returned payload
with a non-null value; (b) every declared parameter present in P with a
non-null value has had its value replaced by its ParamType's canonical form
(the successful result of its type's conversion — e.g. a DATE field becomes
a parsed date/time value, not a string); and (c) parameters absent from P
are left untouched (still absent — no default injection). -/
theorem validate_success_contract (auth : String → Option String)
    (s : Schema) (payload : Value) (result : List (String × Value))
    (h : s.validate auth payload = .ok result) :
    (∀ p ∈ s.params, p.required = true →
      ∃ v, lookupVal result p.name = some v ∧ v ≠ Value.null) ∧
    (∀ fields, payload = .obj fields →
      (∀ k v p, lookupVal fields k = some v → v ≠ Value.null →
        s.find k = some p →
        ∃ cv, p.type.convert auth v = .ok cv ∧ lookupVal result k = some cv) ∧
      (∀ k, lookupVal fields k = none → lookupVal result k = none)) := by
  constructor
  · intro p hp hreq
    exact Schema.validate_ok_required_present auth s payload result h p hp hreq
  · intro fields hfields
    subst hfields
    obtain ⟨fields', heq, hok, hconv⟩ :=
      Schema.validate_ok_elim auth s (.obj fields) result h
    injection heq with heq2
    subst heq2
    constructor
    · intro k v p hk hv hp
      exact Schema.convertFields_present auth s fields result hconv k v p hk
        ((Value.isNull_eq_false_iff v).mpr hv) hp
    · intro k hk
      exact Schema.convertFields_absent auth s fields result hconv k hk

/-- Witness for C1 at the `test_all_clear` schema and payload. -/
theorem validate_success_contract_witness :
    testSchema.validate authStub allClearPayload = .ok allClearResult ∧
    ((∀ p ∈ testSchema.params, p.required = true →
      ∃ v, lookupVal allClearResult p.name = some v ∧ v ≠ Value.null) ∧
    (∀ fields, allClearPayload = .obj fields →
      (∀ k v p, lookupVal fields k = some v → v ≠ Value.null →
        testSchema.find k = some p →
        ∃ cv, p.type.convert authStub v = .ok cv ∧
          lookupVal allClearResult k = some cv) ∧
      (∀ k, lookupVal fields k = none →
        lookupVal allClearResult k = none))) :=
  ⟨rfl, validate_success_contract authStub testSchema allClearPayload
    allClearResult rfl⟩

/-- **C4.** For every Schema S and mapping payload in which two or more
required parameters are absent or null, validation fails with a
MissingParameters error whose field list names every such missing/null
required field, not only the first one found. -/
theorem validate_missing_required_batched (auth : String → Option String)
    (s : Schema) (fields : List (String × Value)) (p₁ p₂ : Parameter)
    (hp₁ : p₁ ∈ s.params) (hp₂ : p₂ ∈ s.params) (hne : p₁.name ≠ p₂.name)
    (hreq₁ : p₁.required = true) (hreq₂ : p₂.required = true)
    (hinv₁ : p₁.invalid fields = true) (hinv₂ : p₂.invalid fields = true) :
    ∃ names, s.validate auth (.obj fields) =
        .error (.missingParameters names) ∧
      ∀ p ∈ s.params, p.required = true → p.invalid fields = true →
        p.name ∈ names := by
  have hbad : s.params.filter (fun p => p.required && p.invalid fields) ≠ [] := by
    intro hnil
    have hn := List.filter_eq_nil_iff.mp hnil p₁ hp₁
    simp [hreq₁, hinv₁] at hn
  refine ⟨_, Schema.validate_missing auth s fields hbad, ?_⟩
  intro p hp hreq hinv
  exact List.mem_map.mpr
    ⟨p, List.mem_filter.mpr ⟨hp, by simp [hreq, hinv]⟩, rfl⟩

/-- Witness for C4: validating `{}` against `abSchema` fails naming both
"A" and "B". -/
theorem validate_missing_required_batched_witness :
    (⟨"A", .STRING, true⟩ : Parameter) ∈ abSchema.params ∧
    (⟨"B", .STRING, true⟩ : Parameter) ∈ abSchema.params ∧
    (Parameter.name ⟨"A", .STRING, true⟩ ≠ Parameter.name ⟨"B", .STRING, true⟩) ∧
    Parameter.required ⟨"A", ParamType.STRING, true⟩ = true ∧
    Parameter.required ⟨"B", ParamType.STRING, true⟩ = true ∧
    Parameter.invalid ⟨"A", ParamType.STRING, true⟩ [] = true ∧
    Parameter.invalid ⟨"B", ParamType.STRING, true⟩ [] = true ∧
    (∃ names, abSchema.validate authStub (.obj []) =
        .error (.missingParameters names) ∧
      ∀ p ∈ abSchema.params, p.required = true → p.invalid [] = true →
        p.name ∈ names) :=
  ⟨List.mem_cons_self _ _,
   List.mem_cons_of_mem _ (List.mem_cons_self _ _),
   by simp,
   rfl, rfl, rfl, rfl,
   validate_missing_required_batched authStub abSchema [] _ _
     (List.mem_cons_self _ _)
     (List.mem_cons_of_mem _ (List.mem_cons_self _ _))
     (by simp) rfl rfl rfl rfl⟩

/-- **C5** (counterexample to the claim as stated): the claim says a
non-required Parameter's `invalid` returns false on every payload, but for
the optional parameter "data" and the payload `{"data": null}` it returns
true — exactly the behaviour the repository's own unit test
`TestParameter.test_invalid_optional` expects. -/
theorem invalid_optional_null_counterexample :
    Parameter.required ⟨"data", ParamType.STRING, false⟩ = false ∧
    Parameter.invalid ⟨"data", ParamType.STRING, false⟩
      [("data", Value.null)] = true :=
  ⟨rfl, rfl⟩

/-- **C5** (amended): for every Parameter p and payload P, `p.invalid(P)`
returns true iff p's name is present in P with a null value, or absent from
P while p is required; in particular a non-required parameter is invalid
exactly when its name is present with a null value (not never, as the
original claim said). -/
theorem invalid_characterization (p : Parameter)
    (fields : List (String × Value)) :
    p.invalid fields = true ↔
      (lookupVal fields p.name = some Value.null ∨
       (lookupVal fields p.name = none ∧ p.required = true)) := by
  rcases h : lookupVal fields p.name with _ | v <;>
    simp only [Parameter.invalid, h]
  · simp
  · cases v <;> simp [Value.isNull]

/-- **C3** (the code evaluated at the claim's payload): the "list datasets"
schema declares `user` required, and a required parameter whose value is
null is gathered by the required-check, so validating
`{"user": null, "controller": "host1", "start": "2020-01-01",
"end": "2020-01-31"}` fails with MissingParameters naming "user" — it does
not succeed as the claim (and the resource's own `assemble` docstring,
which says `"user": None` requests only public datasets) state. -/
theorem datasets_list_user_null_rejected :
    DatasetsList.schema.validate authStub (.obj
      [("user", Value.null), ("controller", .str "host1"),
       ("start", .str "2020-01-01"), ("end", .str "2020-01-31")])
      = .error (.missingParameters ["user"]) := rfl

/-- **C9.** For every payload that passes the Elasticsearch passthrough
schema's validation (required STRING indices, optional JSON payload and
params), `assemble` returns exactly
`{"path": indices, "kwargs": {"json": ..., "params": ...}}`, the kwargs
entries taking the validated payload's values when present and being
present with value null (not omitted) when absent. -/
theorem elasticsearch_assemble_contract (auth : String → Option String)
    (payload : Value) (validated : List (String × Value))
    (h : Elasticsearch.schema.validate auth payload = .ok validated) :
    ∃ i, lookupVal validated "indices" = some i ∧
      Elasticsearch.assemble validated = some (.obj [
        ("path", i),
        ("kwargs", .obj [
          ("json", (lookupVal validated "payload").getD Value.null),
          ("params", (lookupVal validated "params").getD Value.null)])]) := by
  obtain ⟨i, hi, _⟩ :=
    Schema.validate_ok_required_present auth Elasticsearch.schema payload
      validated h ⟨"indices", .STRING, true⟩ (List.mem_cons_self _ _) rfl
  exact ⟨i, hi, by simp [Elasticsearch.assemble, hi]⟩

/-- Witness for C9 at the minimal passthrough payload `{"indices": "idx"}`
(optional payload/params absent, so both kwargs entries are null). -/
theorem elasticsearch_assemble_contract_witness :
    Elasticsearch.schema.validate authStub (.obj [("indices", .str "idx")])
      = .ok [("indices", .str "idx")] ∧
    (∃ i, lookupVal [("indices", .str "idx")] "indices" = some i ∧
      Elasticsearch.assemble [("indices", .str "idx")] = some (.obj [
        ("path", i),
        ("kwargs", .obj [
          ("json", (lookupVal [("indices", .str "idx")] "payload").getD
            Value.null),
          ("params", (lookupVal [("indices", .str "idx")] "params").getD
            Value.null)])])) :=
  ⟨rfl, elasticsearch_assemble_contract authStub
    (.obj [("indices", .str "idx")]) [("indices", .str "idx")] rfl⟩

/-- **C10.** `Elasticsearch.postprocess` is the identity function: the
backend's raw result is returned unchanged as the API response. -/
theorem elasticsearch_postprocess_identity (r : Value) :
    Elasticsearch.postprocess r = r := rfl

/-- **C6.** For every validated payload (and any index-naming and
user-ownership collaborators), the backend request descriptor returned by
`DatasetsList.assemble` filters on a term equating run.controller with the
payload's controller value and on the resolved user-ownership term, sorts
by run.end in descending order, caps the result size at the fixed bound
5000, and projects the fixed field set via the `_source` includes list. -/
theorem datasets_list_assemble_contract
    (auth : String → Option String)
    (genMonthRange : String → Value → Value → String)
    (getUserTerm : Value → Value)
    (payload : Value) (pd : List (String × Value))
    (user controller start endv : Value)
    (hval : DatasetsList.schema.validate auth payload = .ok pd)
    (hu : lookupVal pd "user" = some user)
    (hc : lookupVal pd "controller" = some controller)
    (hs : lookupVal pd "start" = some start)
    (he : lookupVal pd "end" = some endv) :
    DatasetsList.assemble genMonthRange getUserTerm pd = some (.obj [
      ("path", .str
        ("/" ++ genMonthRange ".v6.run-data." start endv ++ "/_search")),
      ("kwargs", .obj [
        ("json", .obj [
          ("_source", .obj [("includes", .arr [
            .str "@metadata.controller_dir",
            .str "@metadata.satellite",
            .str "run.controller",
            .str "run.start",
            .str "run.end",
            .str "run.name",
            .str "run.config",
            .str "run.prefix",
            .str "run.id"])]),
          ("sort", .obj [("run.end", .obj [("order", .str "desc")])]),
          ("query", .obj [("bool", .obj [("filter", .arr [
            .obj [("term", getUserTerm user)],
            .obj [("term", .obj [("run.controller", controller)])]])])]),
          ("size", .num 5000)])])]) := by
  simp [DatasetsList.assemble, hu, hc, hs, he]

/-- Witness for C6 at the concrete payload and collaborators. -/
theorem datasets_list_assemble_contract_witness :
    DatasetsList.schema.validate authStub dlPayload = .ok dlValidated ∧
    lookupVal dlValidated "user" = some (.str "drb") ∧
    lookupVal dlValidated "controller" = some (.str "host1") ∧
    lookupVal dlValidated "start" = some (.date 2020 1 1 0 0 0) ∧
    lookupVal dlValidated "end" = some (.date 2020 1 31 0 0 0) ∧
    DatasetsList.assemble demoMonthRange demoUserTerm dlValidated
      = some (.obj [
      ("path", .str ("/" ++
        demoMonthRange ".v6.run-data." (.date 2020 1 1 0 0 0)
          (.date 2020 1 31 0 0 0) ++ "/_search")),
      ("kwargs", .obj [
        ("json", .obj [
          ("_source", .obj [("includes", .arr [
            .str "@metadata.controller_dir",
            .str "@metadata.satellite",
            .str "run.controller",
            .str "run.start",
            .str "run.end",
            .str "run.name",
            .str "run.config",
            .str "run.prefix",
            .str "run.id"])]),
          ("sort", .obj [("run.end", .obj [("order", .str "desc")])]),
          ("query", .obj [("bool", .obj [("filter", .arr [
            .obj [("term", demoUserTerm (.str "drb"))],
            .obj [("term", .obj [("run.controller", .str "host1")])]])])]),
          ("size", .num 5000)])])]) :=
  ⟨rfl, rfl, rfl, rfl, rfl,
   datasets_list_assemble_contract authStub demoMonthRange demoUserTerm
     dlPayload dlValidated _ _ _ _ rfl rfl rfl rfl rfl⟩

/-! ## Lemmas about `DatasetsList.postprocess` -/
theorem lookupVal_append (xs ys : List (String × Value)) (k : String) :
    lookupVal (xs ++ ys) k = (lookupVal xs k).or (lookupVal ys k) := by
  induction xs with
  | nil => simp [lookupVal_nil, Option.none_or]
  | cons e rest ih =>
    obtain ⟨k₀, v₀⟩ := e
    rw [List.cons_append, lookupVal_cons, lookupVal_cons]
    cases hkk : (k₀ == k)
    · rw [if_neg (by simp), if_neg (by simp), ih]
    · rw [if_pos rfl, if_pos rfl]
      rfl

theorem lookupVal_optField_self (k : String) (o : Option Value) :
    lookupVal (optField k o) k = o := by
  cases o <;> simp [optField, lookupVal_nil, lookupVal_cons]

theorem lookupVal_optField_ne (k' k : String) (o : Option Value)
    (h : (k' == k) = false) :
    lookupVal (optField k' o) k = none := by
  cases o <;> simp [optField, lookupVal_nil, lookupVal_cons, h]

/-- The timestamp try-block fails on every input (see
`startTimestampAttempt`): the zero-argument `utcfromtimestamp` call raises
`TypeError` whenever the parse succeeds, and the parse itself raises
otherwise. -/
theorem startTimestampAttempt_none (v : Value) :
    startTimestampAttempt v = none := by
  cases v
  case str s =>
    simp only [startTimestampAttempt]
    cases parseDate s <;> rfl
  all_goals rfl

/-- Every well-formed hit postprocesses successfully — regardless of
whether its `run.start` parses — and the produced record's
`startUnixTimestamp` is the hit's backend sort key. -/
theorem postprocessHit_ok (hit : Value) (hw : WellFormedHit hit) :
    ∃ fs, postprocessHit hit = some (.obj fs) ∧
      lookupVal fs "startUnixTimestamp" = (objGet hit "sort").bind arrGet0 := by
  obtain ⟨src, run, name, controller, start, endv, idv, sk,
    h1, h2, h3, h4, h5, h6, h7, h8⟩ := hw
  refine ⟨[("key", name), ("run.name", name), ("run.controller", controller),
      ("run.start", start), ("run.end", endv), ("id", idv),
      ("startUnixTimestamp", sk)] ++
      optField "run.config" (objGet run "config") ++
      optField "run.prefix" (objGet run "prefix") ++
      metaFields src, ?_, ?_⟩
  · simp [postprocessHit, h1, h2, h3, h4, h5, h6, h7, h8,
      startTimestampAttempt_none]
  · rw [h8]
    rfl

/-- **C2** (the code evaluated at a failing input): the hit's `run.start`
string parses as a date/time, yet the output record's `startUnixTimestamp`
is the backend-provided sort key 42, not a value derived from `run.start`.
The source's try-block computes
`parser.parse(run["start"]).utcfromtimestamp()`; `utcfromtimestamp` is a
`datetime` classmethod that requires a POSIX-timestamp argument, so the
zero-argument instance call raises `TypeError` on every input and the
except-fallback to `dataset["sort"][0]` always runs — contradicting both
the claim and the function's own docstring example, whose
`startUnixTimestamp` is derived from the run's start time. -/
theorem datasets_list_start_timestamp_is_sort_key :
    parseDate "2020-04-29T12:49:13.560620"
      = some (.date 2020 4 29 12 49 13) ∧
    DatasetsList.postprocess
        (.obj [("hits", .obj [("hits", .arr [parseableHit])])])
      = some (.arr [.obj [
          ("key", .str "runA"), ("run.name", .str "runA"),
          ("run.controller", .str "ctl"),
          ("run.start", .str "2020-04-29T12:49:13.560620"),
          ("run.end", .str "2020-04-29T13:30:04.918704"),
          ("id", .str "id1"), ("startUnixTimestamp", .num 42)]]) :=
  ⟨rfl, rfl⟩

/-- **C7.** For every hit carrying the mandatory fields and a sort key, the
optional fields run.config, run.prefix, @metadata.controller_dir and
@metadata.satellite are copied into the output record exactly when the
corresponding field is present in the source hit (the record's entry equals
the source's optional lookup, so each key appears iff the source field is
present); in particular a hit lacking "config" yields a record with no
"run.config" key rather than a failure. -/
theorem postprocess_optional_fields (hit src run name controller start
      endv idv sk : Value)
    (h1 : objGet hit "_source" = some src)
    (h2 : objGet src "run" = some run)
    (h3 : objGet run "name" = some name)
    (h4 : objGet run "controller" = some controller)
    (h5 : objGet run "start" = some start)
    (h6 : objGet run "end" = some endv)
    (h7 : objGet run "id" = some idv)
    (h8 : (objGet hit "sort").bind arrGet0 = some sk) :
    ∃ fs, postprocessHit hit = some (.obj fs) ∧
      lookupVal fs "run.config" = objGet run "config" ∧
      lookupVal fs "run.prefix" = objGet run "prefix" ∧
      lookupVal fs "@metadata.controller_dir"
        = (objGet src "@metadata").bind (fun m => objGet m "controller_dir") ∧
      lookupVal fs "@metadata.satellite"
        = (objGet src "@metadata").bind (fun m => objGet m "satellite") := by
  refine ⟨[("key", name), ("run.name", name), ("run.controller", controller),
      ("run.start", start), ("run.end", endv), ("id", idv),
      ("startUnixTimestamp", sk)] ++
      optField "run.config" (objGet run "config") ++
      optField "run.prefix" (objGet run "prefix") ++
      metaFields src, ?_, ?_, ?_, ?_, ?_⟩
  · simp [postprocessHit, h1, h2, h3, h4, h5, h6, h7, h8,
      startTimestampAttempt_none]
  · rw [lookupVal_append, lookupVal_append, lookupVal_append]
    rw [show lookupVal [("key", name), ("run.name", name),
      ("run.controller", controller), ("run.start", start),
      ("run.end", endv), ("id", idv), ("startUnixTimestamp", sk)]
      "run.config" = none from rfl]
    rw [Option.none_or, lookupVal_optField_self,
      lookupVal_optField_ne "run.prefix" "run.config" _ rfl]
    unfold metaFields
    cases objGet src "@metadata" with
    | none => simp [lookupVal_nil]
    | some meta =>
      rw [lookupVal_append,
        lookupVal_optField_ne "@metadata.controller_dir" "run.config" _ rfl,
        lookupVal_optField_ne "@metadata.satellite" "run.config" _ rfl]
      simp
  · rw [lookupVal_append, lookupVal_append, lookupVal_append]
    rw [show lookupVal [("key", name), ("run.name", name),
      ("run.controller", controller), ("run.start", start),
      ("run.end", endv), ("id", idv), ("startUnixTimestamp", sk)]
      "run.prefix" = none from rfl]
    rw [Option.none_or,
      lookupVal_optField_ne "run.config" "run.prefix" _ rfl,
      Option.none_or, lookupVal_optField_self]
    unfold metaFields
    cases objGet src "@metadata" with
    | none => simp [lookupVal_nil]
    | some meta =>
      rw [lookupVal_append,
        lookupVal_optField_ne "@metadata.controller_dir" "run.prefix" _ rfl,
        lookupVal_optField_ne "@metadata.satellite" "run.prefix" _ rfl]
      simp
  · rw [lookupVal_append, lookupVal_append, lookupVal_append]
    rw [show lookupVal [("key", name), ("run.name", name),
      ("run.controller", controller), ("run.start", start),
      ("run.end", endv), ("id", idv), ("startUnixTimestamp", sk)]
      "@metadata.controller_dir" = none from rfl]
    rw [Option.none_or,
      lookupVal_optField_ne "run.config" "@metadata.controller_dir" _ rfl,
      Option.none_or,
      lookupVal_optField_ne "run.prefix" "@metadata.controller_dir" _ rfl,
      Option.none_or]
    unfold metaFields
    cases objGet src "@metadata" with
    | none => simp [lookupVal_nil]
    | some meta =>
      rw [lookupVal_append, lookupVal_optField_self]
      rcases hcd : objGet meta "controller_dir" with _ | cd
      · rw [Option.none_or,
          lookupVal_optField_ne "@metadata.satellite"
            "@metadata.controller_dir" _ rfl]
        simp [hcd]
      · simp [hcd, Option.or]
  · rw [lookupVal_append, lookupVal_append, lookupVal_append]
    rw [show lookupVal [("key", name), ("run.name", name),
      ("run.controller", controller), ("run.start", start),
      ("run.end", endv), ("id", idv), ("startUnixTimestamp", sk)]
      "@metadata.satellite" = none from rfl]
    rw [Option.none_or,
      lookupVal_optField_ne "run.config" "@metadata.satellite" _ rfl,
      Option.none_or,
      lookupVal_optField_ne "run.prefix" "@metadata.satellite" _ rfl,
      Option.none_or]
    unfold metaFields
    cases objGet src "@metadata" with
    | none => simp [lookupVal_nil]
    | some meta =>
      rw [lookupVal_append,
        lookupVal_optField_ne "@metadata.controller_dir"
          "@metadata.satellite" _ rfl,
        Option.none_or, lookupVal_optField_self]
      simp

/-- Witness for C7 at the hit lacking "config": its record carries no
"run.config" entry (the lookup equals `objGet runC "config" = none`) while
"run.prefix" and "@metadata.satellite" are carried over. -/
theorem postprocess_optional_fields_witness :
    objGet noConfigHit "_source" = some srcC ∧
    objGet srcC "run" = some runC ∧
    objGet runC "name" = some (.str "runC") ∧
    objGet runC "controller" = some (.str "ctl") ∧
    objGet runC "start" = some (.str "2020-04-29T12:49:13") ∧
    objGet runC "end" = some (.str "2020-04-30T12:49:13") ∧
    objGet runC "id" = some (.str "id3") ∧
    (objGet noConfigHit "sort").bind arrGet0 = some (.num 99) ∧
    (∃ fs, postprocessHit noConfigHit = some (.obj fs) ∧
      lookupVal fs "run.config" = objGet runC "config" ∧
      lookupVal fs "run.prefix" = objGet runC "prefix" ∧
      lookupVal fs "@metadata.controller_dir"
        = (objGet srcC "@metadata").bind (fun m => objGet m "controller_dir") ∧
      lookupVal fs "@metadata.satellite"
        = (objGet srcC "@metadata").bind (fun m => objGet m "satellite")) :=
  ⟨rfl, rfl, rfl, rfl, rfl, rfl, rfl, rfl,
   postprocess_optional_fields noConfigHit srcC runC _ _ _ _ _ _
     rfl rfl rfl rfl rfl rfl rfl rfl⟩

/-- Postprocessing a list of well-formed hits succeeds hit by hit, each
record receiving its own hit's backend sort key as startUnixTimestamp. -/
theorem mapM_postprocessHit_ok :
    ∀ hits : List Value, (∀ hit ∈ hits, WellFormedHit hit) →
      ∃ ds, hits.mapM postprocessHit = some ds ∧
        List.Forall₂ (fun hit d => ∃ fs sk, d = Value.obj fs ∧
          (objGet hit "sort").bind arrGet0 = some sk ∧
          lookupVal fs "startUnixTimestamp" = some sk) hits ds := by
  intro hits
  induction hits with
  | nil => exact fun _ => ⟨[], rfl, List.Forall₂.nil⟩
  | cons hit rest ih =>
    intro h
    obtain ⟨ds, hds, hfa⟩ := ih (fun x hx => h x (List.mem_cons_of_mem _ hx))
    have hw := h hit (List.mem_cons_self _ _)
    obtain ⟨fs, hfs, hts⟩ := postprocessHit_ok hit hw
    obtain ⟨src, run, name, controller, start, endv, idv, sk,
      g1, g2, g3, g4, g5, g6, g7, g8⟩ := hw
    refine ⟨Value.obj fs :: ds, ?_, ?_⟩
    · rw [List.mapM_cons, hfs]
      show (rest.mapM postprocessHit >>= fun ys =>
        pure (Value.obj fs :: ys) : Option (List Value))
        = some (Value.obj fs :: ds)
      rw [hds]
      rfl
    · exact List.Forall₂.cons ⟨fs, sk, rfl, g8, by rw [g8] at hts; exact hts⟩
        hfa

/-- **C8.** For every backend response whose hits carry the mandatory
fields and a backend-assigned sort key, `postprocess` produces the whole
response — an individual hit's unparseable `run.start` never raises an
error to the caller — and every record (in particular every offending one;
with the always-failing timestamp expression, that is every record) falls
back to the backend sort key for its startUnixTimestamp. -/
theorem datasets_list_postprocess_total (resp hitsOuter : Value)
    (hits : List Value)
    (h1 : objGet resp "hits" = some hitsOuter)
    (h2 : objGet hitsOuter "hits" = some (.arr hits))
    (h3 : ∀ hit ∈ hits, WellFormedHit hit) :
    ∃ ds : List Value, DatasetsList.postprocess resp = some (.arr ds) ∧
      List.Forall₂ (fun hit d => ∃ fs sk, d = Value.obj fs ∧
        (objGet hit "sort").bind arrGet0 = some sk ∧
        lookupVal fs "startUnixTimestamp" = some sk) hits ds := by
  obtain ⟨ds, hds, hfa⟩ := mapM_postprocessHit_ok hits h3
  refine ⟨ds, ?_, hfa⟩
  have hds2 : List.mapM.loop postprocessHit hits [] = some ds := hds
  simp [DatasetsList.postprocess, h1, h2, hds2]

/-- Witness for C8 at a one-hit response whose `run.start` fails to parse:
postprocessing still succeeds and the record receives the sort key 7. -/
theorem datasets_list_postprocess_total_witness :
    parseDate "not-a-date" = none ∧
    objGet (Value.obj [("hits", Value.obj
        [("hits", Value.arr [unparseableHit])])]) "hits"
      = some (.obj [("hits", .arr [unparseableHit])]) ∧
    objGet (Value.obj [("hits", Value.arr [unparseableHit])]) "hits"
      = some (.arr [unparseableHit]) ∧
    (∀ hit ∈ [unparseableHit], WellFormedHit hit) ∧
    (∃ ds : List Value,
      DatasetsList.postprocess (.obj [("hits", Value.obj
        [("hits", Value.arr [unparseableHit])])]) = some (.arr ds) ∧
      List.Forall₂ (fun hit d => ∃ fs sk, d = Value.obj fs ∧
        (objGet hit "sort").bind arrGet0 = some sk ∧
        lookupVal fs "startUnixTimestamp" = some sk)
        [unparseableHit] ds) := by
  refine ⟨rfl, rfl, rfl, ?_, ?_⟩
  · intro hit hm
    rw [List.mem_singleton] at hm
    subst hm
    exact ⟨_, _, _, _, _, _, _, _, rfl, rfl, rfl, rfl, rfl, rfl, rfl, rfl⟩
  · refine datasets_list_postprocess_total _ _ [unparseableHit] rfl rfl ?_
    intro hit hm
    rw [List.mem_singleton] at hm
    subst hm
    exact ⟨_, _, _, _, _, _, _, _, rfl, rfl, rfl, rfl, rfl, rfl, rfl, rfl⟩
